import Mathlib

/-!
# groups.0xchat.com: role/action authorization and relay wiring

A shallow embedding of `src/groups.0xchat.com/main.go`:

* the three role singletons and the `state.AllowAction` closure (main.go:42-46, 75-93);
* the splice of the domain validators into `relay.RejectEvent` (main.go:104-114);
* the extension of `relay.OverwriteDeletionOutcome` (main.go:101-103).

Go pointers are addresses together with the object they point to; pointer equality
compares addresses only.  Go interface values are a dynamic type with a payload; a
type switch looks at the dynamic type only.
-/

set_option autoImplicit false

namespace Relay0xchat

/-! ## Data model -/

/-- The struct `nip29.Role`: a name and a description. -/
structure Role where
  Name : String
  Description : String
deriving DecidableEq, Repr

/-- A value of type `*nip29.Role`: the nil pointer, or the address of an allocated
`Role` together with the object stored there. -/
inductive RolePtr where
  | nil
  | ref (addr : Nat) (val : Role)
deriving DecidableEq, Repr

/-- Go's `==` on two `*nip29.Role` values: both nil, or the same address.  The
pointed-to fields are never compared. -/
def RolePtr.ptrEq : RolePtr → RolePtr → Bool
  | .nil, .nil => true
  | .ref a _, .ref b _ => a == b
  | _, _ => false

/-- main.go:43, the first of the three package-level allocations. -/
def adminRole : RolePtr :=
  .ref 0 { Name := "admin", Description := "the group's max top admin" }

/-- main.go:44. -/
def moderatorRole : RolePtr :=
  .ref 1 { Name := "moderator", Description := "the group's noble servant" }

/-- main.go:45. -/
def memberRole : RolePtr :=
  .ref 2 { Name := "member", Description := "townsman" }

/-- The dynamic type of a `relay29.Action` interface value.  `Other` stands for
every concrete type the type switch of `AllowAction` does not name, the nil
interface included. -/
inductive ActionType where
  | RemoveUser
  | DeleteEvent
  | PutUser
  | EditMetadata
  | CreateInvite
  | CreateGroup
  | DeleteGroup
  | Other (typeName : String)
deriving DecidableEq, Repr

/-- Modelled from the spec: the declarations of the `relay29.Action` variants are
not part of the source tree; each variant carries "the data needed to execute it".
`PutUser` names target users with the roles to assign, `RemoveUser` and
`DeleteEvent` name their targets. -/
inductive Action where
  | RemoveUser (targets : List String)
  | DeleteEvent (targets : List String)
  | PutUser (targets : List (String × List String))
  | EditMetadata (fields : List (String × String))
  | CreateInvite (codes : List String)
  | CreateGroup (creator : String) (when : Int)
  | DeleteGroup (when : Int)
  | Other (typeName : String) (fields : List String)
deriving DecidableEq, Repr

/-- The dynamic type that `action.(type)` inspects. -/
def Action.variant : Action → ActionType
  | .RemoveUser _ => .RemoveUser
  | .DeleteEvent _ => .DeleteEvent
  | .PutUser _ => .PutUser
  | .EditMetadata _ => .EditMetadata
  | .CreateInvite _ => .CreateInvite
  | .CreateGroup _ _ => .CreateGroup
  | .DeleteGroup _ => .DeleteGroup
  | .Other n _ => .Other n

/-- A `context.Context`, reduced to the values it carries. -/
structure Context where
  values : List (String × String)
deriving DecidableEq, Repr

/-- A `nip29.Group`, reduced to its address, name and member table. -/
structure Group where
  Address : String
  Name : String
  Members : List (String × List RolePtr)
deriving DecidableEq, Repr

/-! ## `state.AllowAction` (main.go:75-93) -/

/-- The closure assigned to `state.AllowAction`.  `ctx` and `group` are bound and
never read, as in the source. -/
def AllowAction (_ctx : Context) (_group : Group) (role : RolePtr) (action : Action) : Bool :=
  if role.ptrEq adminRole then
    -- owners can do everything
    true
  else
    let inSwitch : Option Bool :=
      if role.ptrEq moderatorRole then
        match action with
        | .RemoveUser _ => some true
        | .DeleteEvent _ => some true
        | .PutUser _ => some true
        | _ => none
      else none
    match inSwitch with
    | some b => b
    | none =>
      -- no one else can do anything else
      false

/-! ## Events, time and validator outcomes -/

/-- A `nostr.Event`, reduced to the fields the admission and deletion policies read.
`CreatedAt` is a `nostr.Timestamp`, a count of whole seconds. -/
structure Event where
  ID : String
  PubKey : String
  CreatedAt : Int
  Kind : Int
  Tags : List (List String)
deriving DecidableEq, Repr

/-- A `time.Duration`: a signed count of nanoseconds. -/
abbrev Duration := Int

/-- The constant `time.Second`. -/
def Second : Duration := 1000000000

/-- The whole seconds in a duration. -/
def Duration.seconds (d : Duration) : Int := d / Second

/-- The result of one validator: pass, or reject with a reason. -/
inductive Outcome where
  | pass
  | reject (reason : String)
deriving DecidableEq, Repr

/-- Whether an outcome is a rejection. -/
def Outcome.rejected : Outcome → Bool
  | .pass => false
  | .reject _ => true

/-- Modelled from the spec: `policies.PreventTimestampsInThePast` belongs to the
imported package `github.com/fiatjaf/khatru/policies`, whose source is not part of
the tree.  The spec (4.2, item 3): "reject if `event.timestamp < ambientTime - 60s`";
the threshold is the argument main.go:112 passes. -/
def PreventTimestampsInThePast (threshold : Duration) (ambientTime : Int) (event : Event) :
    Outcome :=
  if event.CreatedAt < ambientTime - threshold.seconds then
    .reject "timestamp-too-old"
  else
    .pass

/-- Modelled from the spec: `policies.PreventTimestampsInTheFuture` belongs to the
imported package `github.com/fiatjaf/khatru/policies`, whose source is not part of
the tree.  The spec (4.2, item 4): "reject if `event.timestamp > ambientTime + 30s`";
the threshold is the argument main.go:113 passes. -/
def PreventTimestampsInTheFuture (threshold : Duration) (ambientTime : Int) (event : Event) :
    Outcome :=
  if event.CreatedAt > ambientTime + threshold.seconds then
    .reject "timestamp-too-new"
  else
    .pass

/-- The guard main.go:112 installs. -/
def pastGuard : Int → Event → Outcome :=
  PreventTimestampsInThePast (60 * Second)

/-- The guard main.go:113 installs. -/
def futureGuard : Int → Event → Outcome :=
  PreventTimestampsInTheFuture (30 * Second)

/-! ## `relay.RejectEvent` (main.go:104-114) -/

/-- An entry of the slice `relay.RejectEvent`: a validator that was already in the
slice when `main` reaches line 104 (of an arbitrary type `β`), or the closure
returned by one of the four `policies` constructors, recorded with the arguments of
the call. -/
inductive RejectEventFn (β : Type) where
  | baseline (f : β)
  | PreventLargeTags (arg : Int)
  | RestrictToSpecifiedKinds (flag : Bool) (kinds : List Nat)
  | PreventTimestampsInThePast (threshold : Duration)
  | PreventTimestampsInTheFuture (threshold : Duration)
deriving DecidableEq, Repr

/-- Go's `slices.Insert(s, i, v...)`: panics (here `none`) when `i > len(s)`,
otherwise returns `s[:i]`, then `v`, then `s[i:]`. -/
def slicesInsert {α : Type} (s : List α) (i : Nat) (v : List α) : Option (List α) :=
  if i > s.length then none
  else some (s.take i ++ v ++ s.drop i)

/-- The kinds listed at main.go:107-110, in source order. -/
def allowedKinds : List Nat :=
  [7, 9, 10, 11, 12, 16, 20, 1018, 1068, 1111,
   30023, 31922, 31923, 9802,
   9000, 9001, 9002, 9003, 9004, 9005, 9006, 9007, 9008,
   9021, 9022, 9321, 9735, 34235, 34236]

/-- The four variadic arguments of the `slices.Insert` call, main.go:105-113. -/
def domainValidators (β : Type) : List (RejectEventFn β) :=
  [ .PreventLargeTags 640,
    .RestrictToSpecifiedKinds true allowedKinds,
    .PreventTimestampsInThePast (60 * Second),
    .PreventTimestampsInTheFuture (30 * Second) ]

/-- The value assigned to `relay.RejectEvent` at main.go:104, as a function of the
slice found there. -/
def mainRejectEvent {β : Type} (baseline : List (RejectEventFn β)) :
    Option (List (RejectEventFn β)) :=
  slicesInsert baseline 2 (domainValidators β)

/-! ## `relay.OverwriteDeletionOutcome` (main.go:101-103) -/

/-- One event a deletion request proposes to delete: its identifier and its
original creation timestamp. -/
structure Candidate where
  id : String
  createdAt : Int
deriving DecidableEq, Repr

/-- The spec's `DeletionOutcome`: the proposed deletions. -/
abbrev DeletionOutcome := List Candidate

/-- An override function of the deletion-outcome chain: it receives the deletion
request and the running outcome and returns the next outcome. -/
abbrev DeletionOverride := Event → DeletionOutcome → DeletionOutcome

/-- An event is old when its creation timestamp lies before the retention
threshold. -/
def isOld (retentionThreshold : Int) (c : Candidate) : Bool :=
  decide (c.createdAt < retentionThreshold)

/-- Modelled from the spec: `blockDeletesOfOldMessages` is declared in another file
of package main that is not part of the tree.  The spec (4.3): "for each event
identifier in the current outcome, if that event's original creation timestamp is
older than a fixed retention threshold, remove it from the outcome (i.e., refuse to
delete it) while leaving younger events' deletions intact."  The threshold, which the
spec leaves open, is a parameter. -/
def blockDeletesOfOldMessages (retentionThreshold : Int) : DeletionOverride :=
  fun _deletion outcome => outcome.filter (fun c => !(isOld retentionThreshold c))

/-- Go's `append(s, x)`. -/
def goAppend {α : Type} (s : List α) (x : α) : List α := s ++ [x]

/-- The value assigned to `relay.OverwriteDeletionOutcome` at main.go:101, as a
function of the slice found there. -/
def mainOverwriteDeletionOutcome (retentionThreshold : Int) (existing : List DeletionOverride) :
    List DeletionOverride :=
  goAppend existing (blockDeletesOfOldMessages retentionThreshold)

/-- Modelled from the spec: the runner of the chain belongs to the relay framework,
outside the tree.  The spec (4.3): "each receives the outcome produced by the
previous override (or the default, for the first) and returns a possibly-narrowed
outcome." -/
def refineDeletionOutcome (chain : List DeletionOverride) (deletion : Event)
    (defaultOutcome : DeletionOutcome) : DeletionOutcome :=
  chain.foldl (fun outcome f => f deletion outcome) defaultOutcome

/-! ## Basic facts -/

theorem ptrEq_refl (r : RolePtr) : r.ptrEq r = true := by
  cases r <;> simp [RolePtr.ptrEq]

theorem ptrEq_trans_left (r s t : RolePtr) (h : r.ptrEq s = true) :
    r.ptrEq t = s.ptrEq t := by
  cases r <;> cases s <;> cases t <;> simp_all [RolePtr.ptrEq]

theorem moderator_not_admin : moderatorRole.ptrEq adminRole = false := by
  decide

/-- The decision of `AllowAction` as a function of the two pointer comparisons and
the action's dynamic type. -/
theorem AllowAction_eq (ctx : Context) (g : Group) (r : RolePtr) (a : Action) :
    AllowAction ctx g r a =
      (r.ptrEq adminRole ||
        (r.ptrEq moderatorRole &&
          (a.variant == .RemoveUser || a.variant == .DeleteEvent || a.variant == .PutUser))) := by
  unfold AllowAction
  cases hA : r.ptrEq adminRole <;> cases hM : r.ptrEq moderatorRole <;>
    cases a <;> simp [Action.variant]

/-- The four spliced validators are exactly four. -/
theorem domainValidators_length (β : Type) : (domainValidators β).length = 4 := rfl

/-- With at least `i` elements present, `slices.Insert` does not panic and splices
the new values between the first `i` elements and the rest. -/
theorem slicesInsert_of_le {α : Type} (s v : List α) (i : Nat) (h : i ≤ s.length) :
    slicesInsert s i v = some (s.take i ++ v ++ s.drop i) := by
  unfold slicesInsert
  rw [if_neg (Nat.not_lt.mpr h)]

/-- Running a chain extended by one override is running the chain and then the
override. -/
theorem refineDeletionOutcome_goAppend (chain : List DeletionOverride) (f : DeletionOverride)
    (deletion : Event) (d : DeletionOutcome) :
    refineDeletionOutcome (goAppend chain f) deletion d
      = f deletion (refineDeletionOutcome chain deletion d) := by
  simp [refineDeletionOutcome, goAppend, List.foldl_append]

/-! ## The role/action authorizer -/

/-- C1: for every context, group and action, of whatever variant and payload,
`AllowAction` returns true when the acting role is the `adminRole` instance. -/
theorem AllowAction_admin (ctx : Context) (g : Group) (a : Action) :
    AllowAction ctx g adminRole a = true := by
  rw [AllowAction_eq, ptrEq_refl]
  rfl

/-- C2: when the acting role is the `moderatorRole` instance, `AllowAction` returns
true if and only if the action's variant is `RemoveUser`, `DeleteEvent` or `PutUser`,
and false for every other variant: `EditMetadata`, `CreateInvite`, `CreateGroup`,
`DeleteGroup` and every unrecognised type. -/
theorem AllowAction_moderator (ctx : Context) (g : Group) (a : Action) :
    (AllowAction ctx g moderatorRole a = true ↔
        (a.variant = .RemoveUser ∨ a.variant = .DeleteEvent ∨ a.variant = .PutUser))
    ∧ (AllowAction ctx g moderatorRole a = false ↔
        (a.variant ≠ .RemoveUser ∧ a.variant ≠ .DeleteEvent ∧ a.variant ≠ .PutUser))
    ∧ (∀ fields, AllowAction ctx g moderatorRole (.EditMetadata fields) = false)
    ∧ (∀ codes, AllowAction ctx g moderatorRole (.CreateInvite codes) = false)
    ∧ (∀ creator t, AllowAction ctx g moderatorRole (.CreateGroup creator t) = false)
    ∧ (∀ t, AllowAction ctx g moderatorRole (.DeleteGroup t) = false)
    ∧ (∀ name fields, AllowAction ctx g moderatorRole (.Other name fields) = false) := by
  refine ⟨?_, ?_, ?_, ?_, ?_, ?_, ?_⟩
  · rw [AllowAction_eq, ptrEq_refl, moderator_not_admin]
    cases a <;> simp [Action.variant]
  · rw [AllowAction_eq, ptrEq_refl, moderator_not_admin]
    cases a <;> simp [Action.variant]
  all_goals
    intros
    rw [AllowAction_eq, ptrEq_refl, moderator_not_admin]
    rfl

/-- C3: for every action and every role pointer that is neither the `adminRole`
instance nor the `moderatorRole` instance (pointer comparison), `AllowAction`
returns false. -/
theorem AllowAction_other_role (ctx : Context) (g : Group) (r : RolePtr) (a : Action)
    (hA : r.ptrEq adminRole = false) (hM : r.ptrEq moderatorRole = false) :
    AllowAction ctx g r a = false := by
  rw [AllowAction_eq, hA, hM]
  rfl

/-- C3 at the roles the claim lists: `memberRole`, the nil pointer, a custom role,
and freshly allocated roles whose fields equal those of `adminRole` and of
`moderatorRole`; the action is a `PutUser`, which a moderator would be allowed. -/
theorem AllowAction_other_role_witness :
    AllowAction ⟨[]⟩ ⟨"g", "G", []⟩ memberRole (.PutUser [("alice", ["admin"])]) = false
    ∧ AllowAction ⟨[]⟩ ⟨"g", "G", []⟩ .nil (.PutUser [("alice", ["admin"])]) = false
    ∧ AllowAction ⟨[]⟩ ⟨"g", "G", []⟩ (.ref 3 ⟨"vip", "custom"⟩)
        (.PutUser [("alice", ["admin"])]) = false
    ∧ AllowAction ⟨[]⟩ ⟨"g", "G", []⟩ (.ref 4 ⟨"admin", "the group's max top admin"⟩)
        (.PutUser [("alice", ["admin"])]) = false
    ∧ AllowAction ⟨[]⟩ ⟨"g", "G", []⟩ (.ref 5 ⟨"moderator", "the group's noble servant"⟩)
        (.PutUser [("alice", ["admin"])]) = false :=
  ⟨AllowAction_other_role _ _ _ _ (by decide) (by decide),
   AllowAction_other_role _ _ _ _ (by decide) (by decide),
   AllowAction_other_role _ _ _ _ (by decide) (by decide),
   AllowAction_other_role _ _ _ _ (by decide) (by decide),
   AllowAction_other_role _ _ _ _ (by decide) (by decide)⟩

/-- C10: the result of `AllowAction` depends only on which instance the role pointer
designates and on the action's variant: two calls with pointers to the same
instance and actions of the same variant agree, whatever the contexts, groups and
payloads.  In particular a moderator is allowed every `PutUser`, `RemoveUser` and
`DeleteEvent`, whatever it targets. -/
theorem AllowAction_depends_on_role_and_variant
    (ctx₁ ctx₂ : Context) (g₁ g₂ : Group) (r₁ r₂ : RolePtr) (a₁ a₂ : Action)
    (hr : r₁.ptrEq r₂ = true) (ha : a₁.variant = a₂.variant) :
    AllowAction ctx₁ g₁ r₁ a₁ = AllowAction ctx₂ g₂ r₂ a₂
    ∧ (∀ targets, AllowAction ctx₁ g₁ moderatorRole (.PutUser targets) = true)
    ∧ (∀ targets, AllowAction ctx₁ g₁ moderatorRole (.RemoveUser targets) = true)
    ∧ (∀ targets, AllowAction ctx₁ g₁ moderatorRole (.DeleteEvent targets) = true) := by
  refine ⟨?_, ?_, ?_, ?_⟩
  · rw [AllowAction_eq, AllowAction_eq, ptrEq_trans_left r₁ r₂ adminRole hr,
      ptrEq_trans_left r₁ r₂ moderatorRole hr, ha]
  all_goals
    intro targets
    rw [AllowAction_eq, ptrEq_refl, moderator_not_admin]
    rfl

/-- C10 at two `PutUser` actions with different payloads, one of which assigns the
admin role, in different contexts and groups. -/
theorem AllowAction_depends_on_role_and_variant_witness :
    AllowAction ⟨[]⟩ ⟨"g1", "one", []⟩ moderatorRole (.PutUser [("alice", ["member"])])
      = AllowAction ⟨[("k", "v")]⟩ ⟨"g2", "two", [("bob", [adminRole])]⟩ moderatorRole
          (.PutUser [("mallory", ["admin"])]) :=
  (AllowAction_depends_on_role_and_variant _ _ _ _ _ _ _ _ (by decide) (by decide)).1

/-! ## The timestamp guards -/

/-- The threshold of main.go:112 is sixty whole seconds. -/
theorem seconds_sixty : Duration.seconds (60 * Second) = 60 := by
  decide

/-- The threshold of main.go:113 is thirty whole seconds. -/
theorem seconds_thirty : Duration.seconds (30 * Second) = 30 := by
  decide

/-- C6: the past-timestamp guard built with `60*time.Second` rejects an event if and
only if its timestamp is smaller than the ambient time minus 60 seconds; an event
stamped exactly 60 seconds back passes and one stamped 61 seconds back is
rejected. -/
theorem pastGuard_rejects_iff (ambientTime : Int) (ev : Event) :
    ((pastGuard ambientTime ev).rejected = true ↔ ev.CreatedAt < ambientTime - 60)
    ∧ pastGuard ambientTime { ev with CreatedAt := ambientTime - 60 } = .pass
    ∧ (pastGuard ambientTime { ev with CreatedAt := ambientTime - 61 }).rejected = true := by
  unfold pastGuard PreventTimestampsInThePast
  rw [seconds_sixty]
  refine ⟨?_, ?_, ?_⟩
  · by_cases h : ev.CreatedAt < ambientTime - 60 <;> simp [h, Outcome.rejected]
  · simp
  · have h : ambientTime - 61 < ambientTime - 60 := by omega
    simp [h, Outcome.rejected]

/-- C7: the future-timestamp guard built with `30*time.Second` rejects an event if
and only if its timestamp is greater than the ambient time plus 30 seconds; an event
stamped exactly 30 seconds ahead passes and one stamped 31 seconds ahead is
rejected. -/
theorem futureGuard_rejects_iff (ambientTime : Int) (ev : Event) :
    ((futureGuard ambientTime ev).rejected = true ↔ ev.CreatedAt > ambientTime + 30)
    ∧ futureGuard ambientTime { ev with CreatedAt := ambientTime + 30 } = .pass
    ∧ (futureGuard ambientTime { ev with CreatedAt := ambientTime + 31 }).rejected = true := by
  unfold futureGuard PreventTimestampsInTheFuture
  rw [seconds_thirty]
  refine ⟨?_, ?_, ?_⟩
  · by_cases h : ev.CreatedAt > ambientTime + 30 <;> simp [h, Outcome.rejected]
  · simp
  · have h : ambientTime + 31 > ambientTime + 30 := by omega
    simp [h, Outcome.rejected]

/-! ## The composed admission pipeline -/

/-- C8: for every slice `b` of at least two validators, the `slices.Insert` call of
main.go:104 succeeds and yields `b[0]`, `b[1]`, the tag-size guard, the kind
allow-list, the past-timestamp guard, the future-timestamp guard, then `b[2:]` in
its original order: `len(b)+4` validators, none dropped or reordered, every
validator found at index `j ≥ 2` now at index `j+4`. -/
theorem mainRejectEvent_splice {β : Type} (b : List (RejectEventFn β)) (h : 2 ≤ b.length) :
    ∃ r, mainRejectEvent b = some r
      ∧ r = b.take 2 ++
            [ .PreventLargeTags 640,
              .RestrictToSpecifiedKinds true allowedKinds,
              .PreventTimestampsInThePast (60 * Second),
              .PreventTimestampsInTheFuture (30 * Second) ] ++ b.drop 2
      ∧ r.length = b.length + 4
      ∧ r[0]? = b[0]? ∧ r[1]? = b[1]?
      ∧ r[2]? = some (.PreventLargeTags 640)
      ∧ r[3]? = some (.RestrictToSpecifiedKinds true allowedKinds)
      ∧ r[4]? = some (.PreventTimestampsInThePast (60 * Second))
      ∧ r[5]? = some (.PreventTimestampsInTheFuture (30 * Second))
      ∧ ∀ j, 2 ≤ j → r[j + 4]? = b[j]? := by
  match b, h with
  | x :: y :: rest, _ =>
    refine ⟨x :: y :: (domainValidators β ++ rest), ?_, ?_, ?_, ?_, ?_, ?_, ?_, ?_, ?_, ?_⟩
    · unfold mainRejectEvent
      rw [slicesInsert_of_le _ _ _ (by simp)]
      simp
    · simp [domainValidators]
    · simp [domainValidators]
    · rfl
    · simp
    · simp [domainValidators]
    · simp [domainValidators]
    · simp [domainValidators]
    · simp [domainValidators]
    · intro j hj
      obtain ⟨k, rfl⟩ : ∃ k, j = k + 2 := ⟨j - 2, by omega⟩
      simp [domainValidators]

/-- C8 at a baseline of three validators: the third one ends up last, behind the
four spliced validators. -/
theorem mainRejectEvent_splice_witness :
    2 ≤ [RejectEventFn.baseline "v0", .baseline "v1", .baseline "v2"].length
    ∧ ∃ r, mainRejectEvent [RejectEventFn.baseline "v0", .baseline "v1", .baseline "v2"] = some r
      ∧ r = [RejectEventFn.baseline "v0", .baseline "v1", .baseline "v2"].take 2 ++
            [ .PreventLargeTags 640,
              .RestrictToSpecifiedKinds true allowedKinds,
              .PreventTimestampsInThePast (60 * Second),
              .PreventTimestampsInTheFuture (30 * Second) ] ++
            [RejectEventFn.baseline "v0", .baseline "v1", .baseline "v2"].drop 2
      ∧ r.length = [RejectEventFn.baseline "v0", .baseline "v1", .baseline "v2"].length + 4
      ∧ r[0]? = [RejectEventFn.baseline "v0", .baseline "v1", .baseline "v2"][0]?
      ∧ r[1]? = [RejectEventFn.baseline "v0", .baseline "v1", .baseline "v2"][1]?
      ∧ r[2]? = some (.PreventLargeTags 640)
      ∧ r[3]? = some (.RestrictToSpecifiedKinds true allowedKinds)
      ∧ r[4]? = some (.PreventTimestampsInThePast (60 * Second))
      ∧ r[5]? = some (.PreventTimestampsInTheFuture (30 * Second))
      ∧ ∀ j, 2 ≤ j →
          r[j + 4]? = [RejectEventFn.baseline "v0", .baseline "v1", .baseline "v2"][j]? :=
  ⟨by decide, mainRejectEvent_splice _ (by decide)⟩

/-! ## The deletion-outcome chain -/

/-- C9: the chain extended at main.go:101 only narrows the outcome.  Whatever the
deletion request, the overrides already installed and the default outcome,
`blockDeletesOfOldMessages` returns the outcome handed to it without the events
older than the retention threshold: the result is a sublist of what it received,
and holds exactly the received candidates that are not older than the threshold.
With no earlier override that is the default outcome itself; of one older and one
younger proposed event only the younger identifier remains, in either order. -/
theorem blockDeletesOfOldMessages_narrows (retentionThreshold : Int)
    (existing : List DeletionOverride) (deletion : Event) (d : DeletionOutcome) :
    refineDeletionOutcome (mainOverwriteDeletionOutcome retentionThreshold existing) deletion d
        = (refineDeletionOutcome existing deletion d).filter
            (fun c => decide (retentionThreshold ≤ c.createdAt))
    ∧ (refineDeletionOutcome (mainOverwriteDeletionOutcome retentionThreshold existing)
          deletion d).Sublist (refineDeletionOutcome existing deletion d)
    ∧ (∀ c, c ∈ refineDeletionOutcome (mainOverwriteDeletionOutcome retentionThreshold existing)
              deletion d
          ↔ c ∈ refineDeletionOutcome existing deletion d ∧ retentionThreshold ≤ c.createdAt)
    ∧ (∀ c, c ∈ refineDeletionOutcome (mainOverwriteDeletionOutcome retentionThreshold [])
              deletion d
          ↔ c ∈ d ∧ retentionThreshold ≤ c.createdAt)
    ∧ (∀ (older younger : String) (m n : Nat),
        (refineDeletionOutcome (mainOverwriteDeletionOutcome retentionThreshold []) deletion
          [⟨older, retentionThreshold - 1 - m⟩, ⟨younger, retentionThreshold + n⟩]).map
            Candidate.id = [younger]
        ∧ (refineDeletionOutcome (mainOverwriteDeletionOutcome retentionThreshold []) deletion
          [⟨younger, retentionThreshold + n⟩, ⟨older, retentionThreshold - 1 - m⟩]).map
            Candidate.id = [younger]) := by
  have key : ∀ (ex : List DeletionOverride) (dd : DeletionOutcome),
      refineDeletionOutcome (mainOverwriteDeletionOutcome retentionThreshold ex) deletion dd
        = (refineDeletionOutcome ex deletion dd).filter
            (fun c => decide (retentionThreshold ≤ c.createdAt)) := by
    intro ex dd
    unfold mainOverwriteDeletionOutcome
    rw [refineDeletionOutcome_goAppend]
    unfold blockDeletesOfOldMessages isOld
    congr 1
    funext c
    by_cases hc : c.createdAt < retentionThreshold
    · simp [hc]
    · simp [hc, Int.not_lt.mp hc]
  refine ⟨key existing d, ?_, ?_, ?_, ?_⟩
  · rw [key]
    exact List.filter_sublist _
  · intro c
    rw [key]
    simp [List.mem_filter]
  · intro c
    rw [key]
    simp [List.mem_filter, refineDeletionOutcome]
  · intro older younger m n
    have h1 : ¬ (retentionThreshold ≤ retentionThreshold - 1 - (m : Int)) := by omega
    have h2 : retentionThreshold ≤ retentionThreshold + (n : Int) := by omega
    constructor
    · rw [key]
      simp [refineDeletionOutcome, List.filter, h1, h2]
    · rw [key]
      simp [refineDeletionOutcome, List.filter, h1, h2]

end Relay0xchat
